import Mathlib

/-!
Verification of the data-access layer of the Flask-Blog repository
(`blog_db.py`, class `BlogDatabase`).

The store is a SQLite database with three rowid tables created by
`create_tables`:
  topic(topic_id INTEGER PRIMARY KEY, topic TEXT UNIQUE)
  author(author_id INTEGER PRIMARY KEY, name TEXT UNIQUE)
  entry(entry_id INTEGER PRIMARY KEY, title, content, author_id, topic_id,
        FOREIGN KEY(author_id) REFERENCES author, FOREIGN KEY(topic_id) REFERENCES topic)

We embed a database state as three lists of rows kept in rowid (scan)
order.  SQLite semantics relevant to the embedded operations:
  - `INTEGER PRIMARY KEY` is a rowid alias; an INSERT that does not supply
    the id assigns one more than the largest rowid currently in the table
    (1 on an empty table).  No AUTOINCREMENT is declared, so after the row
    holding the maximum rowid is deleted its id can be handed out again.
  - `__init__` executes `PRAGMA foreign_keys = 1`, so foreign keys are
    enforced on the connection: a DELETE on author/topic that would orphan
    an existing entry row raises `sqlite3.IntegrityError: FOREIGN KEY
    constraint failed` and deletes nothing.  DELETE of a non-matching id
    deletes zero rows and raises nothing.
  - `INSERT OR IGNORE` silently does nothing when the UNIQUE name/topic
    column would be violated.
  - `fetchone` on `SELECT ... WHERE <key> = ?` returns the first matching
    row in scan order (at most one here, the filters being unique keys).
-/

/-- A row of the `topic` table. -/
structure TopicRow where
  topic_id : Nat
  topic : String
deriving DecidableEq, Repr

/-- A row of the `author` table. -/
structure AuthorRow where
  author_id : Nat
  name : String
deriving DecidableEq, Repr

/-- A row of the `entry` table as stored (normalized, two foreign keys). -/
structure EntryRow where
  entry_id : Nat
  title : String
  content : String
  author_id : Nat
  topic_id : Nat
deriving DecidableEq, Repr

/-- The record produced by the three-way join in `get_entry_by_id` /
`get_all_entries`: the entry's columns with the author's and topic's names
inlined. -/
structure EntryRecord where
  entry_id : Nat
  title : String
  content : String
  author : String
  author_id : Nat
  topic : String
  topic_id : Nat
deriving DecidableEq, Repr

/-- The state of the blog database: the three tables, rows in rowid order. -/
structure BlogDatabase where
  topics : List TopicRow
  authors : List AuthorRow
  entries : List EntryRow
deriving DecidableEq, Repr

/-- The rowid SQLite assigns to a fresh row: one more than the largest
rowid currently in the table (1 when the table is empty). -/
def nextRowid (ids : List Nat) : Nat :=
  ids.foldr max 0 + 1

namespace BlogDatabase

/-- `create_tables` (reached from `__init__` when the file is new): the
fresh store with the three tables empty. -/
def create_tables : BlogDatabase :=
  { topics := [], authors := [], entries := [] }

/-- `get_topic_by_name`: `SELECT topic_id, topic FROM topic WHERE topic = ?`,
`fetchone` through `row_to_dict` (None when no row). -/
def get_topic_by_name (db : BlogDatabase) (topic_name : String) : Option TopicRow :=
  db.topics.find? (fun t => t.topic == topic_name)

/-- `get_topic_by_id`: `SELECT topic_id, topic FROM topic WHERE topic_id = ?`. -/
def get_topic_by_id (db : BlogDatabase) (topic_id : Nat) : Option TopicRow :=
  db.topics.find? (fun t => t.topic_id == topic_id)

/-- `get_all_topics`: `SELECT * FROM topic`, all rows in scan order. -/
def get_all_topics (db : BlogDatabase) : List TopicRow :=
  db.topics

/-- `insert_topic`: `INSERT OR IGNORE INTO topic(topic) VALUES(?)` (a fresh
rowid is assigned when the name is new, nothing happens when it already
exists), commit, then `get_topic_by_name`.  Returns the new state and the
value `get_topic_by_name` returned. -/
def insert_topic (db : BlogDatabase) (topic : String) : BlogDatabase × Option TopicRow :=
  let db' :=
    if db.topics.any (fun t => t.topic == topic) then db
    else { db with topics :=
            db.topics ++ [⟨nextRowid (db.topics.map TopicRow.topic_id), topic⟩] }
  (db', db'.get_topic_by_name topic)

/-- `delete_topic`: `DELETE FROM topic WHERE topic_id = ?` with
`PRAGMA foreign_keys = 1` in force: when the row exists and some entry
still references it, SQLite raises and the statement has no effect;
otherwise the matching row (if any) is removed. -/
def delete_topic (db : BlogDatabase) (topic_id : Nat) : Except String BlogDatabase :=
  if db.topics.any (fun t => t.topic_id == topic_id) &&
     db.entries.any (fun e => e.topic_id == topic_id) then
    Except.error "FOREIGN KEY constraint failed"
  else
    Except.ok { db with topics := db.topics.filter (fun t => t.topic_id != topic_id) }

/-- `get_author_by_name`: `SELECT author_id, name FROM author WHERE name = ?`. -/
def get_author_by_name (db : BlogDatabase) (name : String) : Option AuthorRow :=
  db.authors.find? (fun a => a.name == name)

/-- `get_author_by_id`: `SELECT author_id, name FROM author WHERE author_id = ?`. -/
def get_author_by_id (db : BlogDatabase) (author_id : Nat) : Option AuthorRow :=
  db.authors.find? (fun a => a.author_id == author_id)

/-- `get_all_authors`: `SELECT * FROM author`, all rows in scan order. -/
def get_all_authors (db : BlogDatabase) : List AuthorRow :=
  db.authors

/-- `insert_author`: `INSERT OR IGNORE INTO author(name) VALUES(?)`, commit,
then `get_author_by_name`. -/
def insert_author (db : BlogDatabase) (name : String) : BlogDatabase × Option AuthorRow :=
  let db' :=
    if db.authors.any (fun a => a.name == name) then db
    else { db with authors :=
            db.authors ++ [⟨nextRowid (db.authors.map AuthorRow.author_id), name⟩] }
  (db', db'.get_author_by_name name)

/-- `delete_author`: `DELETE FROM author WHERE author_id = ?` with foreign
keys enforced, as in `delete_topic`. -/
def delete_author (db : BlogDatabase) (author_id : Nat) : Except String BlogDatabase :=
  if db.authors.any (fun a => a.author_id == author_id) &&
     db.entries.any (fun e => e.author_id == author_id) then
    Except.error "FOREIGN KEY constraint failed"
  else
    Except.ok { db with authors := db.authors.filter (fun a => a.author_id != author_id) }

/-- The join reconstruction shared by `get_entry_by_id` and
`get_all_entries`: an entry row joined (on equality of the foreign keys)
with its author and topic rows; no joined row exists when a foreign key
does not resolve. -/
def joinEntry (db : BlogDatabase) (e : EntryRow) : Option EntryRecord :=
  match db.authors.find? (fun a => a.author_id == e.author_id),
        db.topics.find? (fun t => t.topic_id == e.topic_id) with
  | some a, some t =>
      some ⟨e.entry_id, e.title, e.content, a.name, a.author_id, t.topic, t.topic_id⟩
  | _, _ => none

/-- `get_entry_by_id`: the three-way join `FROM entry, author, topic WHERE
author.author_id = entry.author_id AND topic.topic_id = entry.topic_id AND
entry_id = ?`, `fetchone` through `row_to_dict`.  An entry whose foreign
keys do not resolve yields no joined row, so the result is `none`. -/
def get_entry_by_id (db : BlogDatabase) (entry_id : Nat) : Option EntryRecord :=
  match db.entries.find? (fun e => e.entry_id == entry_id) with
  | none => none
  | some e => db.joinEntry e

/-- `get_all_entries`: the same three-way join over every entry row;
entries whose foreign keys do not resolve produce no row. -/
def get_all_entries (db : BlogDatabase) : List EntryRecord :=
  db.entries.filterMap db.joinEntry

/-- `insert_entry`: `insert_author(author)`, `get_author_by_name(author)`
(its `author_id` is read by subscription, so a `None` would raise — that
branch is unreachable, encoded as the outer `Option`), then likewise for
the topic, then `INSERT INTO entry(title, content, author_id, topic_id)`
assigning a fresh rowid (the resolved ids exist, so the insert's foreign
key check always passes), commit, and `get_entry_by_id(cur.lastrowid)`.
Returns the new state and the value `get_entry_by_id` returned. -/
def insert_entry (db : BlogDatabase) (title content author topic : String) :
    Option (BlogDatabase × Option EntryRecord) :=
  let db1 := (db.insert_author author).1
  match db1.get_author_by_name author with
  | none => none
  | some a =>
    let db2 := (db1.insert_topic topic).1
    match db2.get_topic_by_name topic with
    | none => none
    | some t =>
      let eid := nextRowid (db2.entries.map EntryRow.entry_id)
      let db3 := { db2 with entries :=
                    db2.entries ++ [⟨eid, title, content, a.author_id, t.topic_id⟩] }
      some (db3, db3.get_entry_by_id eid)

/-- `delete_entry`: `DELETE FROM entry WHERE entry_id = ?`; no table
references entry, so the foreign key pragma never makes it raise. -/
def delete_entry (db : BlogDatabase) (entry_id : Nat) : BlogDatabase :=
  { db with entries := db.entries.filter (fun e => e.entry_id != entry_id) }

end BlogDatabase

/-! ### Auxiliary lemmas -/

theorem le_foldr_max {ids : List Nat} {x : Nat} (hx : x ∈ ids) :
    x ≤ ids.foldr max 0 := by
  induction ids with
  | nil => cases hx
  | cons a l ih =>
    rw [List.foldr_cons]
    rcases List.mem_cons.mp hx with h | h
    · exact h ▸ Nat.le_max_left _ _
    · exact Nat.le_trans (ih h) (Nat.le_max_right _ _)

theorem mem_lt_nextRowid {ids : List Nat} {x : Nat} (hx : x ∈ ids) :
    x < nextRowid ids :=
  Nat.lt_succ_of_le (le_foldr_max hx)

namespace BlogDatabase

theorem insert_author_fst (db : BlogDatabase) (name : String) :
    (db.insert_author name).1 =
      if db.authors.any (fun a => a.name == name) then db
      else { db with authors :=
              db.authors ++ [⟨nextRowid (db.authors.map AuthorRow.author_id), name⟩] } :=
  rfl

theorem insert_author_snd (db : BlogDatabase) (name : String) :
    (db.insert_author name).2 = ((db.insert_author name).1).get_author_by_name name :=
  rfl

theorem insert_author_topics (db : BlogDatabase) (name : String) :
    ((db.insert_author name).1).topics = db.topics := by
  rw [insert_author_fst]; split <;> rfl

theorem insert_author_entries (db : BlogDatabase) (name : String) :
    ((db.insert_author name).1).entries = db.entries := by
  rw [insert_author_fst]; split <;> rfl

theorem insert_author_authors_mono (db : BlogDatabase) (name : String) :
    ∀ a ∈ db.authors, a ∈ ((db.insert_author name).1).authors := by
  rw [insert_author_fst]; split
  · exact fun a ha => ha
  · exact fun a ha => List.mem_append_left _ ha

theorem exists_author_after_insert (db : BlogDatabase) (name : String) :
    ∃ a ∈ ((db.insert_author name).1).authors, a.name = name := by
  rw [insert_author_fst]; split
  · next h =>
    obtain ⟨a, ha, hn⟩ := List.any_eq_true.mp h
    exact ⟨a, ha, by simpa using hn⟩
  · exact ⟨⟨nextRowid (db.authors.map AuthorRow.author_id), name⟩, by simp, rfl⟩

theorem get_author_by_name_eq_some (db : BlogDatabase) (name : String)
    (h : ∃ a ∈ db.authors, a.name = name) :
    ∃ a, db.get_author_by_name name = some a ∧ a ∈ db.authors ∧ a.name = name := by
  obtain ⟨a, ha, hn⟩ := h
  have hs : (db.authors.find? (fun x => x.name == name)).isSome :=
    List.find?_isSome.mpr ⟨a, ha, by simp [hn]⟩
  obtain ⟨b, hb⟩ := Option.isSome_iff_exists.mp hs
  exact ⟨b, hb, List.mem_of_find?_eq_some hb, by simpa using List.find?_some hb⟩

theorem insert_author_absorb (db : BlogDatabase) (name : String)
    (h : db.authors.any (fun a => a.name == name) = true) :
    db.insert_author name = (db, db.get_author_by_name name) := by
  simp only [insert_author, h, if_true]

theorem insert_topic_fst (db : BlogDatabase) (topic : String) :
    (db.insert_topic topic).1 =
      if db.topics.any (fun t => t.topic == topic) then db
      else { db with topics :=
              db.topics ++ [⟨nextRowid (db.topics.map TopicRow.topic_id), topic⟩] } :=
  rfl

theorem insert_topic_snd (db : BlogDatabase) (topic : String) :
    (db.insert_topic topic).2 = ((db.insert_topic topic).1).get_topic_by_name topic :=
  rfl

theorem insert_topic_authors (db : BlogDatabase) (topic : String) :
    ((db.insert_topic topic).1).authors = db.authors := by
  rw [insert_topic_fst]; split <;> rfl

theorem insert_topic_entries (db : BlogDatabase) (topic : String) :
    ((db.insert_topic topic).1).entries = db.entries := by
  rw [insert_topic_fst]; split <;> rfl

theorem insert_topic_topics_mono (db : BlogDatabase) (topic : String) :
    ∀ t ∈ db.topics, t ∈ ((db.insert_topic topic).1).topics := by
  rw [insert_topic_fst]; split
  · exact fun t ht => ht
  · exact fun t ht => List.mem_append_left _ ht

theorem exists_topic_after_insert (db : BlogDatabase) (topic : String) :
    ∃ t ∈ ((db.insert_topic topic).1).topics, t.topic = topic := by
  rw [insert_topic_fst]; split
  · next h =>
    obtain ⟨t, ht, hn⟩ := List.any_eq_true.mp h
    exact ⟨t, ht, by simpa using hn⟩
  · exact ⟨⟨nextRowid (db.topics.map TopicRow.topic_id), topic⟩, by simp, rfl⟩

theorem get_topic_by_name_eq_some (db : BlogDatabase) (topic : String)
    (h : ∃ t ∈ db.topics, t.topic = topic) :
    ∃ t, db.get_topic_by_name topic = some t ∧ t ∈ db.topics ∧ t.topic = topic := by
  obtain ⟨t, ht, hn⟩ := h
  have hs : (db.topics.find? (fun x => x.topic == topic)).isSome :=
    List.find?_isSome.mpr ⟨t, ht, by simp [hn]⟩
  obtain ⟨b, hb⟩ := Option.isSome_iff_exists.mp hs
  exact ⟨b, hb, List.mem_of_find?_eq_some hb, by simpa using List.find?_some hb⟩

theorem insert_topic_absorb (db : BlogDatabase) (topic : String)
    (h : db.topics.any (fun t => t.topic == topic) = true) :
    db.insert_topic topic = (db, db.get_topic_by_name topic) := by
  simp only [insert_topic, h, if_true]

theorem joinEntry_eq_some (db : BlogDatabase) (e : EntryRow)
    (ha : ∃ a ∈ db.authors, a.author_id = e.author_id)
    (ht : ∃ t ∈ db.topics, t.topic_id = e.topic_id) :
    ∃ rec, db.joinEntry e = some rec ∧ rec.entry_id = e.entry_id ∧
      rec.title = e.title ∧ rec.content = e.content ∧
      rec.author_id = e.author_id ∧ rec.topic_id = e.topic_id := by
  obtain ⟨a, hamem, haid⟩ := ha
  obtain ⟨t, htmem, htid⟩ := ht
  have hsa : (db.authors.find? (fun x => x.author_id == e.author_id)).isSome :=
    List.find?_isSome.mpr ⟨a, hamem, by simp [haid]⟩
  have hst : (db.topics.find? (fun x => x.topic_id == e.topic_id)).isSome :=
    List.find?_isSome.mpr ⟨t, htmem, by simp [htid]⟩
  obtain ⟨a2, ha2⟩ := Option.isSome_iff_exists.mp hsa
  obtain ⟨t2, ht2⟩ := Option.isSome_iff_exists.mp hst
  have ha2id : a2.author_id = e.author_id := by simpa using List.find?_some ha2
  have ht2id : t2.topic_id = e.topic_id := by simpa using List.find?_some ht2
  refine ⟨⟨e.entry_id, e.title, e.content, a2.name, a2.author_id, t2.topic, t2.topic_id⟩,
    ?_, rfl, rfl, rfl, ha2id, ht2id⟩
  unfold joinEntry
  rw [ha2, ht2]

theorem joinEntry_consistent (db : BlogDatabase) (e : EntryRow) (rec : EntryRecord)
    (h : db.joinEntry e = some rec) :
    (∃ a ∈ db.authors, a.author_id = rec.author_id ∧ a.name = rec.author) ∧
    (∃ t ∈ db.topics, t.topic_id = rec.topic_id ∧ t.topic = rec.topic) := by
  unfold joinEntry at h
  rcases hfa : db.authors.find? (fun x => x.author_id == e.author_id) with _ | a <;>
    rw [hfa] at h
  · exact absurd h (by simp)
  rcases hft : db.topics.find? (fun x => x.topic_id == e.topic_id) with _ | t <;>
    rw [hft] at h
  · exact absurd h (by simp)
  have hrec := Option.some.inj h
  constructor
  · exact ⟨a, List.mem_of_find?_eq_some hfa, by rw [← hrec], by rw [← hrec]⟩
  · exact ⟨t, List.mem_of_find?_eq_some hft, by rw [← hrec], by rw [← hrec]⟩

theorem insert_entry_spec (db : BlogDatabase) (t c a tp : String) :
    ∃ arow trow,
      arow ∈ (((db.insert_author a).1).insert_topic tp).1.authors ∧
      trow ∈ (((db.insert_author a).1).insert_topic tp).1.topics ∧
      db.insert_entry t c a tp =
        (let db2 := (((db.insert_author a).1).insert_topic tp).1
         let eid := nextRowid (db2.entries.map EntryRow.entry_id)
         let db3 : BlogDatabase := { db2 with entries :=
           db2.entries ++ [⟨eid, t, c, arow.author_id, trow.topic_id⟩] }
         some (db3, db3.get_entry_by_id eid)) := by
  obtain ⟨arow, harow, harowmem, _⟩ :=
    (db.insert_author a).1.get_author_by_name_eq_some a
      (db.exists_author_after_insert a)
  obtain ⟨trow, htrow, htrowmem, _⟩ :=
    (((db.insert_author a).1).insert_topic tp).1.get_topic_by_name_eq_some tp
      ((db.insert_author a).1.exists_topic_after_insert tp)
  refine ⟨arow, trow, ?_, htrowmem, ?_⟩
  · rw [insert_topic_authors]; exact harowmem
  · unfold insert_entry
    simp only [harow, htrow]

theorem find?_append_last {α : Type} (l : List α) (x : α) (p : α → Bool)
    (h : ∀ y ∈ l, p y = false) (hx : p x = true) :
    (l ++ [x]).find? p = some x := by
  rw [List.find?_append, List.find?_eq_none.mpr (fun y hy => by simp [h y hy])]
  simp [List.find?, hx]

theorem get_entry_by_id_append_fresh (db : BlogDatabase) (row : EntryRow)
    (h : ∀ e ∈ db.entries, e.entry_id ≠ row.entry_id) :
    ({ db with entries := db.entries ++ [row] } : BlogDatabase).get_entry_by_id row.entry_id
      = ({ db with entries := db.entries ++ [row] } : BlogDatabase).joinEntry row := by
  unfold get_entry_by_id
  dsimp only
  rw [find?_append_last db.entries row _ (fun y hy => by simpa using h y hy) (by simp)]

end BlogDatabase

/-- Claim C3: for every store state and all strings, `insert_entry` returns
the fully reconstructed (present, not absent) record for the newly assigned
entry id, and `get_entry_by_id` on that id in the resulting state returns a
record equal to the one `insert_entry` returned. -/
theorem C3_insert_entry_roundtrip (db : BlogDatabase) (t c a tp : String) :
    ∃ db' rec, db.insert_entry t c a tp = some (db', some rec) ∧
      db'.get_entry_by_id rec.entry_id = some rec := by
  obtain ⟨arow, trow, hamem, htmem, heq⟩ := db.insert_entry_spec t c a tp
  set db2 := (((db.insert_author a).1).insert_topic tp).1 with hdb2
  set eid := nextRowid (db2.entries.map EntryRow.entry_id) with heid
  set row : EntryRow := ⟨eid, t, c, arow.author_id, trow.topic_id⟩ with hrow
  set db3 : BlogDatabase := { db2 with entries := db2.entries ++ [row] } with hdb3
  have hfresh : ∀ e ∈ db2.entries, e.entry_id ≠ row.entry_id := by
    intro e he
    exact Nat.ne_of_lt (mem_lt_nextRowid (List.mem_map_of_mem EntryRow.entry_id he))
  have hget : db3.get_entry_by_id row.entry_id = db3.joinEntry row :=
    BlogDatabase.get_entry_by_id_append_fresh db2 row hfresh
  obtain ⟨rec, hj, hrid, -, -, -, -⟩ :=
    db3.joinEntry_eq_some row ⟨arow, hamem, rfl⟩ ⟨trow, htmem, rfl⟩
  refine ⟨db3, rec, ?_, ?_⟩
  · rw [heq]
    show some (db3, db3.get_entry_by_id eid) = some (db3, some rec)
    rw [show db3.get_entry_by_id eid = db3.joinEntry row from hget, hj]
  · rw [hrid, hget, hj]

/-- The full characterization of `insert_entry` used by several claims:
it always succeeds, assigns the entry id `nextRowid` computed over the
pre-state's entry table (the two name resolutions do not touch it),
appends exactly one entry row holding that id, only grows the author and
topic tables, and the new row's foreign keys resolve in the post-state. -/
theorem insert_entry_full (db : BlogDatabase) (t c a tp : String) :
    ∃ db' rec row,
      db.insert_entry t c a tp = some (db', some rec) ∧
      rec.entry_id = nextRowid (db.entries.map EntryRow.entry_id) ∧
      db'.entries = db.entries ++ [row] ∧
      row.entry_id = rec.entry_id ∧
      db'.get_entry_by_id rec.entry_id = some rec ∧
      (∀ x ∈ db.authors, x ∈ db'.authors) ∧
      (∀ x ∈ db.topics, x ∈ db'.topics) ∧
      (∃ a2 ∈ db'.authors, a2.author_id = row.author_id) ∧
      (∃ t2 ∈ db'.topics, t2.topic_id = row.topic_id) := by
  obtain ⟨arow, trow, hamem, htmem, heq⟩ := db.insert_entry_spec t c a tp
  set db2 := (((db.insert_author a).1).insert_topic tp).1 with hdb2
  have hent2 : db2.entries = db.entries := by
    rw [hdb2, BlogDatabase.insert_topic_entries, BlogDatabase.insert_author_entries]
  set eid := nextRowid (db2.entries.map EntryRow.entry_id) with heid
  set row : EntryRow := ⟨eid, t, c, arow.author_id, trow.topic_id⟩ with hrow
  set db3 : BlogDatabase := { db2 with entries := db2.entries ++ [row] } with hdb3
  have hfresh : ∀ e ∈ db2.entries, e.entry_id ≠ row.entry_id := fun e he =>
    Nat.ne_of_lt (mem_lt_nextRowid (List.mem_map_of_mem EntryRow.entry_id he))
  have hget : db3.get_entry_by_id row.entry_id = db3.joinEntry row :=
    BlogDatabase.get_entry_by_id_append_fresh db2 row hfresh
  obtain ⟨rec, hj, hrid, -, -, -, -⟩ :=
    db3.joinEntry_eq_some row ⟨arow, hamem, rfl⟩ ⟨trow, htmem, rfl⟩
  refine ⟨db3, rec, row, ?_, ?_, ?_, hrid.symm, ?_, ?_, ?_, ⟨arow, hamem, rfl⟩,
    ⟨trow, htmem, rfl⟩⟩
  · rw [heq]
    show some (db3, db3.get_entry_by_id eid) = some (db3, some rec)
    rw [show db3.get_entry_by_id eid = db3.joinEntry row from hget, hj]
  · rw [hrid]
    show eid = nextRowid (db.entries.map EntryRow.entry_id)
    rw [heid, hent2]
  · show db2.entries ++ [row] = db.entries ++ [row]
    rw [hent2]
  · rw [hrid, hget, hj]
  · intro x hx
    have hx1 : x ∈ ((db.insert_author a).1).authors :=
      BlogDatabase.insert_author_authors_mono db a x hx
    show x ∈ db2.authors
    rw [hdb2, BlogDatabase.insert_topic_authors]
    exact hx1
  · intro x hx
    have hx1 : x ∈ ((db.insert_author a).1).topics := by
      rw [BlogDatabase.insert_author_topics]; exact hx
    show x ∈ db2.topics
    rw [hdb2]
    exact BlogDatabase.insert_topic_topics_mono _ tp x hx1

/-! ### Claims -/

/-- Claim C2: for every store state and name, calling `insert_author`
(respectively `insert_topic`) twice in succession returns the same record
both times — a present record, with the same id — creates no second row
(the second call leaves the state unchanged), and never raises for the
duplicate. -/
theorem C2_get_or_create_idempotent (db : BlogDatabase) (name : String) :
    ((db.insert_author name).1).insert_author name = db.insert_author name ∧
    (∃ a, (db.insert_author name).2 = some a) ∧
    ((db.insert_topic name).1).insert_topic name = db.insert_topic name ∧
    (∃ t, (db.insert_topic name).2 = some t) := by
  obtain ⟨a, ha, han⟩ := BlogDatabase.exists_author_after_insert db name
  obtain ⟨t, ht, htn⟩ := BlogDatabase.exists_topic_after_insert db name
  have hAny : ((db.insert_author name).1).authors.any (fun x => x.name == name) = true :=
    List.any_eq_true.mpr ⟨a, ha, by simp [han]⟩
  have hTny : ((db.insert_topic name).1).topics.any (fun x => x.topic == name) = true :=
    List.any_eq_true.mpr ⟨t, ht, by simp [htn]⟩
  refine ⟨?_, ?_, ?_, ?_⟩
  · rw [BlogDatabase.insert_author_absorb _ _ hAny]; rfl
  · obtain ⟨b, hb, _, _⟩ :=
      BlogDatabase.get_author_by_name_eq_some ((db.insert_author name).1) name ⟨a, ha, han⟩
    exact ⟨b, (BlogDatabase.insert_author_snd db name).trans hb⟩
  · rw [BlogDatabase.insert_topic_absorb _ _ hTny]; rfl
  · obtain ⟨b, hb, _, _⟩ :=
      BlogDatabase.get_topic_by_name_eq_some ((db.insert_topic name).1) name ⟨t, ht, htn⟩
    exact ⟨b, (BlogDatabase.insert_topic_snd db name).trans hb⟩

/-- Claim C7: `insert_entry` performs no deduplication: two successive
calls with identical title, content, author and topic both succeed and
produce two distinct entry rows with distinct entry ids. -/
theorem C7_insert_entry_no_dedup (db : BlogDatabase) (t c a tp : String) :
    ∃ db1 rec1 db2 rec2,
      db.insert_entry t c a tp = some (db1, some rec1) ∧
      db1.insert_entry t c a tp = some (db2, some rec2) ∧
      rec1.entry_id ≠ rec2.entry_id ∧
      db2.entries.length = db.entries.length + 2 := by
  obtain ⟨db1, rec1, row1, h1, hid1, hent1, hr1, -, -, -, -, -⟩ :=
    insert_entry_full db t c a tp
  obtain ⟨db2, rec2, row2, h2, hid2, hent2, hr2, -, -, -, -, -⟩ :=
    insert_entry_full db1 t c a tp
  refine ⟨db1, rec1, db2, rec2, h1, h2, ?_, ?_⟩
  · have hm : row1 ∈ db1.entries := by
      rw [hent1]; exact List.mem_append_right _ (List.mem_singleton.mpr rfl)
    have hlt : rec1.entry_id < rec2.entry_id := by
      rw [hid2, ← hr1]
      exact mem_lt_nextRowid (List.mem_map_of_mem EntryRow.entry_id hm)
    exact Nat.ne_of_lt hlt
  · rw [hent2, hent1]
    simp

/-- The referential-integrity invariant maintained by the store's own
operations: every entry row's foreign keys resolve to existing author and
topic rows. -/
def BlogDatabase.entriesResolved (db : BlogDatabase) : Prop :=
  ∀ e ∈ db.entries, (∃ a ∈ db.authors, a.author_id = e.author_id) ∧
    (∃ t ∈ db.topics, t.topic_id = e.topic_id)

theorem length_filterMap_of_isSome {α β : Type} (f : α → Option β) :
    ∀ (l : List α), (∀ x ∈ l, (f x).isSome) → (l.filterMap f).length = l.length := by
  intro l
  induction l with
  | nil => intro _; rfl
  | cons x xs ih =>
    intro h
    obtain ⟨y, hy⟩ := Option.isSome_iff_exists.mp (h x (List.mem_cons_self x xs))
    rw [List.filterMap_cons, hy, List.length_cons,
      ih (fun z hz => h z (List.mem_cons_of_mem x hz)), List.length_cons]

theorem get_all_entries_length_of_resolved (db : BlogDatabase)
    (h : db.entriesResolved) :
    db.get_all_entries.length = db.entries.length := by
  unfold BlogDatabase.get_all_entries
  refine length_filterMap_of_isSome _ _ (fun e he => ?_)
  obtain ⟨rec, hrec, -⟩ := db.joinEntry_eq_some e (h e he).1 (h e he).2
  rw [hrec]
  rfl

theorem insert_entry_preserves_resolved (db : BlogDatabase) (t c a tp : String)
    (h : db.entriesResolved) :
    ∃ db' r, db.insert_entry t c a tp = some (db', r) ∧ db'.entriesResolved ∧
      db'.entries.length = db.entries.length + 1 := by
  obtain ⟨db', rec, row, h1, -, hent, -, -, hamono, htmono, hrowa, hrowt⟩ :=
    insert_entry_full db t c a tp
  refine ⟨db', some rec, h1, ?_, by rw [hent]; simp⟩
  intro e he
  rw [hent] at he
  rcases List.mem_append.mp he with he | he
  · obtain ⟨⟨a2, ha2, ha2id⟩, ⟨t2, ht2, ht2id⟩⟩ := h e he
    exact ⟨⟨a2, hamono a2 ha2, ha2id⟩, ⟨t2, htmono t2 ht2, ht2id⟩⟩
  · rw [List.mem_singleton.mp he]
    exact ⟨hrowa, hrowt⟩

/-- A sequence of `insert_entry` calls, each fed the state the previous
one returned (records discarded), with no intervening deletes. -/
def insertEntrySeq (db : BlogDatabase) :
    List (String × String × String × String) → Option BlogDatabase
  | [] => some db
  | q :: qs =>
    match db.insert_entry q.1 q.2.1 q.2.2.1 q.2.2.2 with
    | none => none
    | some (db', _) => insertEntrySeq db' qs

theorem insertEntrySeq_resolved :
    ∀ (qs : List (String × String × String × String)) (db0 db' : BlogDatabase),
      db0.entriesResolved → insertEntrySeq db0 qs = some db' →
      db'.entriesResolved ∧ db'.entries.length = db0.entries.length + qs.length := by
  intro qs
  induction qs with
  | nil =>
    intro db0 db' h h2
    cases Option.some.inj h2
    exact ⟨h, rfl⟩
  | cons q qs ih =>
    intro db0 db' h h2
    obtain ⟨db1, r, he, hres, hlen⟩ :=
      insert_entry_preserves_resolved db0 q.1 q.2.1 q.2.2.1 q.2.2.2 h
    rw [insertEntrySeq, he] at h2
    obtain ⟨hres2, hlen2⟩ := ih db1 db' hres h2
    refine ⟨hres2, ?_⟩
    rw [hlen2, hlen, List.length_cons]
    omega

/-- Claim C6: `get_all_entries` on the empty store returns the empty
sequence, and after any sequence of exactly N `insert_entry` calls from
the fresh store, with no intervening deletes, it returns a sequence of
length exactly N. -/
theorem C6_get_all_entries_count :
    BlogDatabase.create_tables.get_all_entries = [] ∧
    ∀ (qs : List (String × String × String × String)) (db' : BlogDatabase),
      insertEntrySeq BlogDatabase.create_tables qs = some db' →
      db'.get_all_entries.length = qs.length := by
  refine ⟨rfl, fun qs db' h => ?_⟩
  have h0 : BlogDatabase.create_tables.entriesResolved := fun e he => by cases he
  obtain ⟨hres, hlen⟩ := insertEntrySeq_resolved qs BlogDatabase.create_tables db' h0 h
  rw [get_all_entries_length_of_resolved db' hres, hlen]
  simp [BlogDatabase.create_tables]

/-- Witness for C6 at a concrete two-insert run. -/
theorem C6_get_all_entries_count_witness :
    (BlogDatabase.mk [⟨1, "Thoughts"⟩, ⟨2, "Stuff"⟩] [⟨1, "Karen"⟩, ⟨2, "Sam"⟩]
      [⟨1, "Hi", "Hi how are you", 1, 1⟩, ⟨2, "Hello", "Hello how are you", 2, 2⟩]).get_all_entries.length = 2 :=
  C6_get_all_entries_count.2
    [("Hi", "Hi how are you", "Karen", "Thoughts"),
     ("Hello", "Hello how are you", "Sam", "Stuff")] _ (by decide)

/-- Claim C9: every entry record returned by `get_all_entries` or
`get_entry_by_id` is internally consistent: its author field carries the
name of an author row present in the store whose id is the record's
author_id, and its topic field the name of a topic row whose id is the
record's topic_id (the rows are unique in reachable states, ids being
primary keys). -/
theorem C9_entry_records_consistent (db : BlogDatabase) :
    (∀ rec ∈ db.get_all_entries,
      (∃ a ∈ db.authors, a.author_id = rec.author_id ∧ a.name = rec.author) ∧
      (∃ t ∈ db.topics, t.topic_id = rec.topic_id ∧ t.topic = rec.topic)) ∧
    (∀ (i : Nat) (rec : EntryRecord), db.get_entry_by_id i = some rec →
      (∃ a ∈ db.authors, a.author_id = rec.author_id ∧ a.name = rec.author) ∧
      (∃ t ∈ db.topics, t.topic_id = rec.topic_id ∧ t.topic = rec.topic)) := by
  constructor
  · intro rec hrec
    obtain ⟨e, -, he⟩ := List.mem_filterMap.mp hrec
    exact db.joinEntry_consistent e rec he
  · intro i rec hrec
    unfold BlogDatabase.get_entry_by_id at hrec
    rcases hf : db.entries.find? (fun e => e.entry_id == i) with _ | e <;>
      rw [hf] at hrec
    · exact absurd hrec (by simp)
    · exact db.joinEntry_consistent e rec hrec

/-- Witness for C9 on a concrete one-entry store. -/
theorem C9_entry_records_consistent_witness :
    (∃ a ∈ (BlogDatabase.mk [⟨1, "Thoughts"⟩] [⟨1, "Karen"⟩]
        [⟨1, "Hi", "Hi how are you", 1, 1⟩]).authors,
      a.author_id = (EntryRecord.mk 1 "Hi" "Hi how are you" "Karen" 1 "Thoughts" 1).author_id ∧
      a.name = (EntryRecord.mk 1 "Hi" "Hi how are you" "Karen" 1 "Thoughts" 1).author) ∧
    (∃ t ∈ (BlogDatabase.mk [⟨1, "Thoughts"⟩] [⟨1, "Karen"⟩]
        [⟨1, "Hi", "Hi how are you", 1, 1⟩]).topics,
      t.topic_id = (EntryRecord.mk 1 "Hi" "Hi how are you" "Karen" 1 "Thoughts" 1).topic_id ∧
      t.topic = (EntryRecord.mk 1 "Hi" "Hi how are you" "Karen" 1 "Thoughts" 1).topic) :=
  (C9_entry_records_consistent
      (BlogDatabase.mk [⟨1, "Thoughts"⟩] [⟨1, "Karen"⟩]
        [⟨1, "Hi", "Hi how are you", 1, 1⟩])).1
    (EntryRecord.mk 1 "Hi" "Hi how are you" "Karen" 1 "Thoughts" 1) (by decide)

/-- Claim C10: `delete_entry` never modifies the author or topic tables —
`get_all_authors` and `get_all_topics` return after the call exactly what
they returned before it, for every state and id. -/
theorem C10_delete_entry_frame (db : BlogDatabase) (i : Nat) :
    (db.delete_entry i).get_all_authors = db.get_all_authors ∧
    (db.delete_entry i).get_all_topics = db.get_all_topics :=
  ⟨rfl, rfl⟩

theorem find?_filter_ne_key {α : Type} (l : List α) (f : α → Nat) (i : Nat) :
    (l.filter (fun x => f x != i)).find? (fun x => f x == i) = none :=
  List.find?_eq_none.mpr (fun x hx => by
    have h2 := (List.mem_filter.mp hx).2
    simp only [bne_iff_ne, ne_eq] at h2
    simp [h2])

/-- Claim C8: deleting a non-existent id is a silent no-op for each entity
kind: the call returns without error and the store state — hence every
subsequent read — is exactly what it was before. -/
theorem C8_delete_missing_noop (db : BlogDatabase) (i : Nat) :
    ((∀ e ∈ db.entries, e.entry_id ≠ i) → db.delete_entry i = db) ∧
    ((∀ a ∈ db.authors, a.author_id ≠ i) → db.delete_author i = Except.ok db) ∧
    ((∀ t ∈ db.topics, t.topic_id ≠ i) → db.delete_topic i = Except.ok db) := by
  refine ⟨fun h => ?_, fun h => ?_, fun h => ?_⟩
  · unfold BlogDatabase.delete_entry
    rw [List.filter_eq_self.mpr (fun e he => by simpa using h e he)]
  · have hany : db.authors.any (fun a => a.author_id == i) = false := by
      rw [List.any_eq_false]
      intro a ha
      simpa using h a ha
    unfold BlogDatabase.delete_author
    rw [hany, Bool.false_and, if_neg (by simp),
      List.filter_eq_self.mpr (fun a ha => by simpa using h a ha)]
  · have hany : db.topics.any (fun t => t.topic_id == i) = false := by
      rw [List.any_eq_false]
      intro t ht
      simpa using h t ht
    unfold BlogDatabase.delete_topic
    rw [hany, Bool.false_and, if_neg (by simp),
      List.filter_eq_self.mpr (fun t ht => by simpa using h t ht)]

/-- Witness for C8: deleting id 5 from a one-row-per-table store. -/
theorem C8_delete_missing_noop_witness :
    (BlogDatabase.mk [⟨1, "Thoughts"⟩] [⟨1, "Karen"⟩]
        [⟨1, "Hi", "Hi how are you", 1, 1⟩]).delete_entry 5
      = BlogDatabase.mk [⟨1, "Thoughts"⟩] [⟨1, "Karen"⟩]
        [⟨1, "Hi", "Hi how are you", 1, 1⟩] ∧
    (BlogDatabase.mk [⟨1, "Thoughts"⟩] [⟨1, "Karen"⟩]
        [⟨1, "Hi", "Hi how are you", 1, 1⟩]).delete_author 5
      = Except.ok (BlogDatabase.mk [⟨1, "Thoughts"⟩] [⟨1, "Karen"⟩]
        [⟨1, "Hi", "Hi how are you", 1, 1⟩]) ∧
    (BlogDatabase.mk [⟨1, "Thoughts"⟩] [⟨1, "Karen"⟩]
        [⟨1, "Hi", "Hi how are you", 1, 1⟩]).delete_topic 5
      = Except.ok (BlogDatabase.mk [⟨1, "Thoughts"⟩] [⟨1, "Karen"⟩]
        [⟨1, "Hi", "Hi how are you", 1, 1⟩]) :=
  ⟨(C8_delete_missing_noop _ 5).1 (by decide),
   (C8_delete_missing_noop _ 5).2.1 (by decide),
   (C8_delete_missing_noop _ 5).2.2 (by decide)⟩

/-- Counterexample to C5 as stated: in the store holding author 1 "Karen",
topic 1 "Thoughts" and entry 1 referencing both (the state `insert_entry`
builds from the fresh store), author id 1 is present, yet `delete_author 1`
raises the foreign-key error instead of deleting, so `get_author_by_id 1`
still returns the row, not the absent marker. -/
theorem C5_counterexample :
    BlogDatabase.create_tables.insert_entry "Hi" "Hi how are you" "Karen" "Thoughts"
      = some (BlogDatabase.mk [⟨1, "Thoughts"⟩] [⟨1, "Karen"⟩]
          [⟨1, "Hi", "Hi how are you", 1, 1⟩],
        some (EntryRecord.mk 1 "Hi" "Hi how are you" "Karen" 1 "Thoughts" 1)) ∧
    (BlogDatabase.mk [⟨1, "Thoughts"⟩] [⟨1, "Karen"⟩]
        [⟨1, "Hi", "Hi how are you", 1, 1⟩]).get_author_by_id 1 = some ⟨1, "Karen"⟩ ∧
    (BlogDatabase.mk [⟨1, "Thoughts"⟩] [⟨1, "Karen"⟩]
        [⟨1, "Hi", "Hi how are you", 1, 1⟩]).delete_author 1
      = Except.error "FOREIGN KEY constraint failed" :=
  ⟨rfl, rfl, rfl⟩

/-- Claim C5 as amended: `delete_entry(id)` followed by `get_entry_by_id(id)`
yields absent unconditionally; for authors and topics the same holds
whenever no entry row still references the id — otherwise the delete raises
a foreign-key error and the row stays. -/
theorem C5_delete_then_get_absent (db : BlogDatabase) (i : Nat) :
    ((db.delete_entry i).get_entry_by_id i = none) ∧
    ((∀ e ∈ db.entries, e.author_id ≠ i) →
      ∃ db', db.delete_author i = Except.ok db' ∧ db'.get_author_by_id i = none) ∧
    ((∀ e ∈ db.entries, e.topic_id ≠ i) →
      ∃ db', db.delete_topic i = Except.ok db' ∧ db'.get_topic_by_id i = none) := by
  refine ⟨?_, fun h => ?_, fun h => ?_⟩
  · unfold BlogDatabase.get_entry_by_id BlogDatabase.delete_entry
    rw [show ({ db with entries := db.entries.filter (fun e => e.entry_id != i) } :
          BlogDatabase).entries = db.entries.filter (fun e => e.entry_id != i) from rfl,
      find?_filter_ne_key db.entries EntryRow.entry_id i]
  · have hany : db.entries.any (fun e => e.author_id == i) = false := by
      rw [List.any_eq_false]
      intro e he
      simpa using h e he
    unfold BlogDatabase.delete_author
    rw [hany, Bool.and_false, if_neg (by simp)]
    exact ⟨_, rfl, find?_filter_ne_key db.authors AuthorRow.author_id i⟩
  · have hany : db.entries.any (fun e => e.topic_id == i) = false := by
      rw [List.any_eq_false]
      intro e he
      simpa using h e he
    unfold BlogDatabase.delete_topic
    rw [hany, Bool.and_false, if_neg (by simp)]
    exact ⟨_, rfl, find?_filter_ne_key db.topics TopicRow.topic_id i⟩

/-- Witness for the amended C5 on a store whose entry was deleted first, so
ids 1 of author and topic are unreferenced. -/
theorem C5_delete_then_get_absent_witness :
    ((BlogDatabase.mk [⟨1, "Thoughts"⟩] [⟨1, "Karen"⟩]
        [⟨1, "Hi", "Hi how are you", 1, 1⟩]).delete_entry 1).get_entry_by_id 1 = none ∧
    (∃ db', (BlogDatabase.mk [⟨1, "Thoughts"⟩] [⟨1, "Karen"⟩] []).delete_author 1
        = Except.ok db' ∧ db'.get_author_by_id 1 = none) ∧
    (∃ db', (BlogDatabase.mk [⟨1, "Thoughts"⟩] [⟨1, "Karen"⟩] []).delete_topic 1
        = Except.ok db' ∧ db'.get_topic_by_id 1 = none) :=
  ⟨(C5_delete_then_get_absent (BlogDatabase.mk [⟨1, "Thoughts"⟩] [⟨1, "Karen"⟩]
      [⟨1, "Hi", "Hi how are you", 1, 1⟩]) 1).1,
   (C5_delete_then_get_absent (BlogDatabase.mk [⟨1, "Thoughts"⟩] [⟨1, "Karen"⟩] []) 1).2.1
      (by decide),
   (C5_delete_then_get_absent (BlogDatabase.mk [⟨1, "Thoughts"⟩] [⟨1, "Karen"⟩] []) 1).2.2
      (by decide)⟩

/-- Counterexample to C1 as stated: in the reachable store holding entry 1
referencing author 1 and topic 1, `delete_author 1` (and `delete_topic 1`)
does not succeed — it raises the foreign-key error, the store is unchanged,
and the entry is still returned by `get_all_entries`. -/
theorem C1_counterexample :
    BlogDatabase.create_tables.insert_entry "Hi" "Hi how are you" "Karen" "Thoughts"
      = some (BlogDatabase.mk [⟨1, "Thoughts"⟩] [⟨1, "Karen"⟩]
          [⟨1, "Hi", "Hi how are you", 1, 1⟩],
        some (EntryRecord.mk 1 "Hi" "Hi how are you" "Karen" 1 "Thoughts" 1)) ∧
    (BlogDatabase.mk [⟨1, "Thoughts"⟩] [⟨1, "Karen"⟩]
        [⟨1, "Hi", "Hi how are you", 1, 1⟩]).delete_author 1
      = Except.error "FOREIGN KEY constraint failed" ∧
    (BlogDatabase.mk [⟨1, "Thoughts"⟩] [⟨1, "Karen"⟩]
        [⟨1, "Hi", "Hi how are you", 1, 1⟩]).delete_topic 1
      = Except.error "FOREIGN KEY constraint failed" ∧
    (BlogDatabase.mk [⟨1, "Thoughts"⟩] [⟨1, "Karen"⟩]
        [⟨1, "Hi", "Hi how are you", 1, 1⟩]).get_all_entries
      = [EntryRecord.mk 1 "Hi" "Hi how are you" "Karen" 1 "Thoughts" 1] :=
  ⟨rfl, rfl, rfl, rfl⟩

/-- Claim C1 as amended: `__init__` enables foreign-key enforcement, so for
every store state, calling `delete_author` (or `delete_topic`) on an id
that an existing Entry references does NOT succeed: it raises the
foreign-key constraint error and deletes nothing, so the dependent Entry
does not vanish from reads. -/
theorem C1_delete_referenced_raises (db : BlogDatabase) (i : Nat) :
    ((∃ a ∈ db.authors, a.author_id = i) → (∃ e ∈ db.entries, e.author_id = i) →
      db.delete_author i = Except.error "FOREIGN KEY constraint failed") ∧
    ((∃ t ∈ db.topics, t.topic_id = i) → (∃ e ∈ db.entries, e.topic_id = i) →
      db.delete_topic i = Except.error "FOREIGN KEY constraint failed") := by
  constructor
  · intro ⟨a, ha, hai⟩ ⟨e, he, hei⟩
    unfold BlogDatabase.delete_author
    rw [if_pos]
    rw [List.any_eq_true.mpr ⟨a, ha, by simp [hai]⟩,
      List.any_eq_true.mpr ⟨e, he, by simp [hei]⟩]
    rfl
  · intro ⟨t, ht, hti⟩ ⟨e, he, hei⟩
    unfold BlogDatabase.delete_topic
    rw [if_pos]
    rw [List.any_eq_true.mpr ⟨t, ht, by simp [hti]⟩,
      List.any_eq_true.mpr ⟨e, he, by simp [hei]⟩]
    rfl

/-- Witness for the amended C1 on the concrete one-entry store. -/
theorem C1_delete_referenced_raises_witness :
    (BlogDatabase.mk [⟨1, "Thoughts"⟩] [⟨1, "Karen"⟩]
        [⟨1, "Hi", "Hi how are you", 1, 1⟩]).delete_author 1
      = Except.error "FOREIGN KEY constraint failed" ∧
    (BlogDatabase.mk [⟨1, "Thoughts"⟩] [⟨1, "Karen"⟩]
        [⟨1, "Hi", "Hi how are you", 1, 1⟩]).delete_topic 1
      = Except.error "FOREIGN KEY constraint failed" :=
  ⟨(C1_delete_referenced_raises (BlogDatabase.mk [⟨1, "Thoughts"⟩] [⟨1, "Karen"⟩]
      [⟨1, "Hi", "Hi how are you", 1, 1⟩]) 1).1 (by decide) (by decide),
   (C1_delete_referenced_raises (BlogDatabase.mk [⟨1, "Thoughts"⟩] [⟨1, "Karen"⟩]
      [⟨1, "Hi", "Hi how are you", 1, 1⟩]) 1).2 (by decide) (by decide)⟩

/-- Counterexample to C4 as stated: ids ARE reused after a delete.  From
the fresh store, insert author "A" (id 1), insert author "B" (id 2), delete
author 2, insert author "C": the store assigns id 2 again, to "C". -/
theorem C4_counterexample :
    (BlogDatabase.create_tables.insert_author "A").1
      = BlogDatabase.mk [] [⟨1, "A"⟩] [] ∧
    ((BlogDatabase.mk [] [⟨1, "A"⟩] []).insert_author "B")
      = (BlogDatabase.mk [] [⟨1, "A"⟩, ⟨2, "B"⟩] [], some ⟨2, "B"⟩) ∧
    (BlogDatabase.mk [] [⟨1, "A"⟩, ⟨2, "B"⟩] []).delete_author 2
      = Except.ok (BlogDatabase.mk [] [⟨1, "A"⟩] []) ∧
    ((BlogDatabase.mk [] [⟨1, "A"⟩] []).insert_author "C")
      = (BlogDatabase.mk [] [⟨1, "A"⟩, ⟨2, "C"⟩] [], some ⟨2, "C"⟩) :=
  ⟨rfl, rfl, rfl, rfl⟩

/-- Claim C4 as amended: a newly assigned id is one more than the largest
id currently in that kind's table, hence strictly greater than every id
present at creation time; ids therefore increase monotonically and are
never reused while no delete intervenes, but deleting the row holding the
largest id frees that id for reuse (as the counterexample shows). -/
theorem C4_ids_exceed_existing (db : BlogDatabase) (name tp t c a : String) :
    ((∀ x ∈ db.authors, x.name ≠ name) →
      ∃ rec, (db.insert_author name).2 = some rec ∧
        rec.author_id = nextRowid (db.authors.map AuthorRow.author_id) ∧
        ∀ x ∈ db.authors, x.author_id < rec.author_id) ∧
    ((∀ x ∈ db.topics, x.topic ≠ tp) →
      ∃ rec, (db.insert_topic tp).2 = some rec ∧
        rec.topic_id = nextRowid (db.topics.map TopicRow.topic_id) ∧
        ∀ x ∈ db.topics, x.topic_id < rec.topic_id) ∧
    (∃ db' rec, db.insert_entry t c a tp = some (db', some rec) ∧
      rec.entry_id = nextRowid (db.entries.map EntryRow.entry_id) ∧
      ∀ e ∈ db.entries, e.entry_id < rec.entry_id) := by
  refine ⟨fun hfresh => ?_, fun hfresh => ?_, ?_⟩
  · have hany : db.authors.any (fun x => x.name == name) = false := by
      rw [List.any_eq_false]
      intro x hx
      simpa using hfresh x hx
    have hfst : (db.insert_author name).1 = { db with authors := db.authors ++
        [⟨nextRowid (db.authors.map AuthorRow.author_id), name⟩] } := by
      rw [BlogDatabase.insert_author_fst, hany, if_neg (by simp)]
    have hsnd := BlogDatabase.insert_author_snd db name
    rw [hfst] at hsnd
    have hfind : ({ db with authors := db.authors ++
        [⟨nextRowid (db.authors.map AuthorRow.author_id), name⟩] } :
          BlogDatabase).get_author_by_name name
        = some ⟨nextRowid (db.authors.map AuthorRow.author_id), name⟩ := by
      unfold BlogDatabase.get_author_by_name
      exact BlogDatabase.find?_append_last _ _ _
        (fun y hy => by simpa using hfresh y hy) (by simp)
    exact ⟨⟨nextRowid (db.authors.map AuthorRow.author_id), name⟩,
      hsnd.trans hfind, rfl,
      fun x hx => mem_lt_nextRowid (List.mem_map_of_mem AuthorRow.author_id hx)⟩
  · have hany : db.topics.any (fun x => x.topic == tp) = false := by
      rw [List.any_eq_false]
      intro x hx
      simpa using hfresh x hx
    have hfst : (db.insert_topic tp).1 = { db with topics := db.topics ++
        [⟨nextRowid (db.topics.map TopicRow.topic_id), tp⟩] } := by
      rw [BlogDatabase.insert_topic_fst, hany, if_neg (by simp)]
    have hsnd := BlogDatabase.insert_topic_snd db tp
    rw [hfst] at hsnd
    have hfind : ({ db with topics := db.topics ++
        [⟨nextRowid (db.topics.map TopicRow.topic_id), tp⟩] } :
          BlogDatabase).get_topic_by_name tp
        = some ⟨nextRowid (db.topics.map TopicRow.topic_id), tp⟩ := by
      unfold BlogDatabase.get_topic_by_name
      exact BlogDatabase.find?_append_last _ _ _
        (fun y hy => by simpa using hfresh y hy) (by simp)
    exact ⟨⟨nextRowid (db.topics.map TopicRow.topic_id), tp⟩,
      hsnd.trans hfind, rfl,
      fun x hx => mem_lt_nextRowid (List.mem_map_of_mem TopicRow.topic_id hx)⟩
  · obtain ⟨db', rec, row, h1, hid, -, -, -, -, -, -, -⟩ := insert_entry_full db t c a tp
    exact ⟨db', rec, h1, hid, fun e he => by
      rw [hid]
      exact mem_lt_nextRowid (List.mem_map_of_mem EntryRow.entry_id he)⟩

/-- Witness for the amended C4 at concrete inputs. -/
theorem C4_ids_exceed_existing_witness :
    (∃ rec, ((BlogDatabase.mk [] [⟨1, "A"⟩] []).insert_author "B").2 = some rec ∧
      rec.author_id = nextRowid ((BlogDatabase.mk [] [⟨1, "A"⟩] []).authors.map
        AuthorRow.author_id) ∧
      ∀ x ∈ (BlogDatabase.mk [] [⟨1, "A"⟩] []).authors, x.author_id < rec.author_id) ∧
    (∃ rec, ((BlogDatabase.mk [⟨1, "T"⟩] [] []).insert_topic "U").2 = some rec ∧
      rec.topic_id = nextRowid ((BlogDatabase.mk [⟨1, "T"⟩] [] []).topics.map
        TopicRow.topic_id) ∧
      ∀ x ∈ (BlogDatabase.mk [⟨1, "T"⟩] [] []).topics, x.topic_id < rec.topic_id) ∧
    (∃ db' rec, (BlogDatabase.mk [] [] []).insert_entry "t" "c" "K" "U"
        = some (db', some rec) ∧
      rec.entry_id = nextRowid ((BlogDatabase.mk [] [] []).entries.map
        EntryRow.entry_id) ∧
      ∀ e ∈ (BlogDatabase.mk [] [] []).entries, e.entry_id < rec.entry_id) :=
  ⟨(C4_ids_exceed_existing (BlogDatabase.mk [] [⟨1, "A"⟩] []) "B" "U" "t" "c" "K").1
      (by decide),
   (C4_ids_exceed_existing (BlogDatabase.mk [⟨1, "T"⟩] [] []) "B" "U" "t" "c" "K").2.1
      (by decide),
   (C4_ids_exceed_existing (BlogDatabase.mk [] [] []) "B" "U" "t" "c" "K").2.2⟩
